import Mathlib

/-!
A shallow embedding of the core of the `classroom-transcriber` desktop
client (Rust, Tauri) and proofs about it.

Embedded source files:
* `src-tauri/src/db.rs`      — the `Recording` record and the SQLite store,
  modelled as a `List Recording` (the `recordings` table); `id` is the
  primary key.  `ORDER BY recorded_at DESC` of `get_all_recordings` is not
  modelled: no theorem below depends on row presentation order.
* `src-tauri/src/sync.rs`    — `SyncClient::submit_transcript`, modelled
  over an explicit transport outcome (what `reqwest` returns).
* `src-tauri/src/whisper.rs` — `Transcriber::transcribe`, modelled over an
  explicit outcome of the external whisper-cli process (exit status,
  stdout, stderr, and the contents of the candidate transcript files).
* `src-tauri/src/audio.rs`   — `resample_to_16khz_mono`, with `f32`/`f64`
  arithmetic idealised as exact rational arithmetic.
* `src-tauri/src/lib.rs`     — the `stop_and_process` pipeline,
  `sync_transcripts`, `delete_recording`, over the oracles above.
-/

/-! ## Data model (db.rs) -/

/-- `Recording` from db.rs.  `duration_seconds : f64` is idealised as `ℚ`. -/
structure Recording where
  id : String
  student_id : String
  audio_path : String
  transcript : Option String
  duration_seconds : ℚ
  recorded_at : String
  synced : Bool
deriving DecidableEq, Repr

/-- `Database::save_recording`: `INSERT OR REPLACE` keyed by the primary key
`id` — the conflicting row (if any) is deleted and the new row inserted. -/
def save_recording (db : List Recording) (r : Recording) : List Recording :=
  db.filter (fun x => !(x.id == r.id)) ++ [r]

/-- `Database::get_all_recordings` (row order not modelled, see header). -/
def get_all_recordings (db : List Recording) : List Recording :=
  db

/-- `Database::get_unsynced_recordings`:
`SELECT … WHERE synced = 0 AND transcript IS NOT NULL`. -/
def get_unsynced_recordings (db : List Recording) : List Recording :=
  db.filter (fun r => !r.synced && r.transcript.isSome)

/-- `Database::mark_synced`: `UPDATE recordings SET synced = 1 WHERE id = ?1`. -/
def mark_synced (db : List Recording) (id : String) : List Recording :=
  db.map (fun r => if r.id == id then { r with synced := true } else r)

/-- `Database::delete_recording`: `DELETE FROM recordings WHERE id = ?1`. -/
def db_delete_recording (db : List Recording) (id : String) : List Recording :=
  db.filter (fun r => !(r.id == id))

/-! ## SyncClient (sync.rs) -/

/-- `SyncError` from sync.rs. -/
inductive SyncError where
  | networkError (msg : String)
  | serverError (msg : String)
deriving DecidableEq, Repr

/-- The JSON body `SubmitResponse` from sync.rs. -/
structure SubmitResponse where
  success : Bool
  id : Option Int
  error : Option String
deriving DecidableEq, Repr

/-- Outcome of deserialising the response body (`Response::json`):
either a parse failure (a `reqwest::Error`) or a parsed `SubmitResponse`. -/
inductive BodyOutcome where
  | parseErr (msg : String)
  | parsed (resp : SubmitResponse)
deriving DecidableEq, Repr

/-- Outcome of the single `POST /api/transcripts` request
(`RequestBuilder::send`): either a transport failure, or a received HTTP
response carrying a status code and a body. -/
inductive TransportOutcome where
  | sendErr (msg : String)
  | received (status : Nat) (body : BodyOutcome)
deriving DecidableEq, Repr

/-- `StatusCode::is_success` of the http crate: 2xx. -/
def statusIsSuccess (s : Nat) : Bool :=
  200 ≤ s && s < 300

/-- `SyncClient::submit_transcript` (sync.rs lines 53–77), given the outcome
of its single HTTP request.  The source does
`.send()?.json()?` and then branches on `response.success` only: the HTTP
status code of a received response is never inspected. -/
def submit_transcript (o : TransportOutcome) : Except SyncError Unit :=
  match o with
  | .sendErr m => .error (.networkError m)
  | .received _ (.parseErr m) => .error (.networkError m)
  | .received _ (.parsed r) =>
      if r.success then .ok ()
      else .error (.serverError (r.error.getD "Unknown error"))

/-- Display rendering of `SyncError` (the `thiserror` messages). -/
def syncErrorMsg : SyncError → String
  | .networkError m => "Network error: " ++ m
  | .serverError m => "Server returned error: " ++ m

/-! ## C1 theorems -/

/-- C1: the claim states that `submit_transcript` returns success only when
the transport-level response status indicates success AND the body's
success flag is true.  This is false: the source never consults the status
code.  Concretely, an HTTP 500 response whose body parses with
`success = true` is returned as success. -/
theorem c1_status_not_checked :
    (submit_transcript (.received 500 (.parsed ⟨true, none, none⟩))).isOk = true ∧
      statusIsSuccess 500 = false := by
  constructor <;> rfl

/-- C1 (amended): `submit_transcript` returns success exactly when a
response was received, its body parsed, and the application-level success
flag is true; the HTTP status code is not consulted.  Any other outcome is
returned as a failure (the single request is not retried). -/
theorem c1_success_iff_body_flag (o : TransportOutcome) :
    (submit_transcript o).isOk = true ↔
      ∃ s r, o = .received s (.parsed r) ∧ r.success = true := by
  cases o with
  | sendErr m => simp [submit_transcript, Except.isOk, Except.toBool]
  | received s b =>
      cases b with
      | parseErr m => simp [submit_transcript, Except.isOk, Except.toBool]
      | parsed r =>
          by_cases h : r.success = true
          · simp [submit_transcript, h, Except.isOk, Except.toBool]
            exact ⟨s, r, ⟨rfl, rfl⟩, h⟩
          · simp only [submit_transcript, h, if_false, Bool.false_eq_true, if_neg,
              Except.isOk, Except.toBool]
            constructor
            · intro hfalse; cases hfalse
            · rintro ⟨s', r', ⟨rfl, rfl⟩, hs⟩
              exact absurd hs h

/-! ## Transcriber (whisper.rs) -/

/-- Outcome of invoking the external whisper-cli process
(`Command::output` in `Transcriber::transcribe`):
either the spawn itself fails, or the process ran with an exit status,
stdout and stderr; `txt` lists, in candidate order, the contents of the
three candidate transcript files (`none` = file does not exist; reading an
existing file is assumed to succeed). -/
inductive CliOutcome where
  | spawnFail (msg : String)
  | ran (exitSuccess : Bool) (stdout stderr : String) (txt : List (Option String))
deriving DecidableEq, Repr

/-- Rust `str::trim`: strip leading and trailing whitespace.  Whitespace is
idealised as the ASCII class Lean's `Char.isWhitespace` decides (Rust uses
the full Unicode White_Space class). -/
def rustTrim (s : String) : String :=
  ⟨((s.data.dropWhile Char.isWhitespace).reverse.dropWhile Char.isWhitespace).reverse⟩

/-- The candidate-file loop of `Transcriber::transcribe` (whisper.rs lines
110–121): the first existing candidate whose trimmed content is non-empty
is returned (trimmed); existing-but-empty candidates are skipped. -/
def firstNonEmptyCandidate : List (Option String) → Option String
  | [] => none
  | none :: rest => firstNonEmptyCandidate rest
  | some c :: rest =>
      if rustTrim c ≠ "" then some (rustTrim c) else firstNonEmptyCandidate rest

/-- `Transcriber::transcribe` (whisper.rs lines 37–134), given the outcome
of the CLI invocation.  Spawn failure and non-zero exit are hard errors;
otherwise the first non-empty candidate transcript file is returned,
falling back to trimmed stdout, and empty output is an error. -/
def whisperTranscribe (o : CliOutcome) : Except String String :=
  match o with
  | .spawnFail m => .error ("Failed to run whisper-cli: " ++ m)
  | .ran exitSuccess stdout stderr txt =>
      if exitSuccess = false then
        .error ("Whisper failed. stderr: " ++ stderr ++ " stdout: " ++ stdout)
      else
        match firstNonEmptyCandidate txt with
        | some t => .ok t
        | none =>
            if rustTrim stdout = "" then
              .error "Transcription produced empty output. The audio may be too short or contain no speech."
            else .ok (rustTrim stdout)

/-- A successful candidate lookup returns the trimmed content of one of the
existing candidate files, and it is non-empty. -/
theorem firstNonEmptyCandidate_spec (l : List (Option String)) (t : String)
    (h : firstNonEmptyCandidate l = some t) :
    ∃ c ∈ l.filterMap id, t = rustTrim c ∧ t ≠ "" := by
  induction l with
  | nil => simp [firstNonEmptyCandidate] at h
  | cons hd tl ih =>
      cases hd with
      | none =>
          simp only [firstNonEmptyCandidate] at h
          obtain ⟨c, hc, ht⟩ := ih h
          exact ⟨c, by simp [hc], ht⟩
      | some c =>
          simp only [firstNonEmptyCandidate] at h
          by_cases hc : rustTrim c ≠ ""
          · rw [if_pos hc] at h
            refine ⟨c, by simp, ?_, ?_⟩
            · injection h with h'; rw [h']
            · injection h with h'; rw [← h']; exact hc
          · rw [if_neg hc] at h
            obtain ⟨c', hc', ht⟩ := ih h
            exact ⟨c', by simp [hc'], ht⟩

/-- `Transcriber::transcribe` never returns an empty transcript. -/
theorem whisperTranscribe_ok_ne_empty (o : CliOutcome) (t : String)
    (h : whisperTranscribe o = .ok t) : t ≠ "" := by
  cases o with
  | spawnFail m => simp [whisperTranscribe] at h
  | ran ex out err txt =>
      simp only [whisperTranscribe] at h
      by_cases hex : ex = false
      · rw [if_pos hex] at h; cases h
      · rw [if_neg hex] at h
        cases hfc : firstNonEmptyCandidate txt with
        | some u =>
            rw [hfc] at h
            injection h with h'
            obtain ⟨c, _, _, hne⟩ := firstNonEmptyCandidate_spec txt u hfc
            rw [← h']; exact hne
        | none =>
            rw [hfc] at h
            by_cases hout : rustTrim out = ""
            · rw [if_pos hout] at h; cases h
            · rw [if_neg hout] at h
              injection h with h'
              rw [← h']; exact hout

/-! ## SpeakerAttributor (spec §4.4) — comparison definition for C2 -/

/-- A segment of the spec's `DiarizedResult`: speaker tag, start/end
times, text.  Modelled from the spec: no such type exists in the source. -/
structure DiarSegment where
  speaker : String
  startTime : ℚ
  endTime : ℚ
  text : String
deriving DecidableEq, Repr

/-- Per-speaker aggregate statistics of the spec's `DiarizedResult`
(word count and total duration), listed in original tag order.
Modelled from the spec: no such type exists in the source. -/
structure SpeakerStat where
  tag : String
  words : ℕ
  totalDuration : ℚ
deriving DecidableEq, Repr

/-- The spec's `DiarizedResult` output contract (spec §3).
Modelled from the spec: no such type exists in the source. -/
structure DiarizedResult where
  segments : List DiarSegment
  stats : List SpeakerStat
  fullText : String
deriving DecidableEq, Repr

/-- Stable descending insertion by word count: an element is placed before
the first element with at most as many words, so earlier-original elements
precede later-original ties. -/
def insertByWordsDesc (x : SpeakerStat) : List SpeakerStat → List SpeakerStat
  | [] => [x]
  | y :: ys =>
      if y.words ≤ x.words then x :: y :: ys else y :: insertByWordsDesc x ys

/-- Sort speaker stats by descending total word count, ties broken by
original tag ordering (stable). -/
def sortByWordsDesc : List SpeakerStat → List SpeakerStat
  | [] => []
  | x :: xs => insertByWordsDesc x (sortByWordsDesc xs)

/-- Display label of a tag: `Speaker k` where `k` is 1 plus the tag's
position in the sorted stats; a tag absent from the stats keeps its raw
name (the spec does not say; segments' tags are assumed to be stats keys). -/
def displayLabel (sorted : List SpeakerStat) (tag : String) : String :=
  match sorted.findIdx? (fun s => s.tag == tag) with
  | some i => "Speaker " ++ toString (i + 1)
  | none => tag

/-- Modelled from the spec: the SpeakerAttributor of spec §4.4, which is
absent from the source.  If the speaker-statistics mapping has ≤ 1 entry,
the output is the flattened full transcript verbatim; otherwise tags are
sorted by descending word count (ties by original order), given labels
`Speaker 1, Speaker 2, …`, and the segments are rendered in original
order, each line `<label>: <text>`, joined by newlines.  This is a
comparison definition for the refinement claim C2 only. -/
def specSpeakerAttribution (d : DiarizedResult) : String :=
  if d.stats.length ≤ 1 then d.fullText
  else
    let sorted := sortByWordsDesc d.stats
    String.intercalate "\n"
      (d.segments.map (fun seg => displayLabel sorted seg.speaker ++ ": " ++ seg.text))

/-! ## C2 theorems -/

/-- C2: the claim states that for a diarized result with more than one
speaker the produced transcript is the label-prefixed rendering.  This is
false of the source: `Transcriber::transcribe` performs no diarization or
speaker attribution at all.  Concretely, for the spec's own example —
speakers `A` (30 words) and `B` (90 words), segments `A: "hello"`,
`B: "hi"` — the spec-mandated output labels `B` as `Speaker 1` and `A` as
`Speaker 2`, while the code returns the engine's flat text verbatim, with
no labels. -/
theorem c2_no_speaker_attribution :
    specSpeakerAttribution
        ⟨[⟨"A", 0, 1, "hello"⟩, ⟨"B", 1, 2, "hi"⟩],
         [⟨"A", 30, 10⟩, ⟨"B", 90, 20⟩], "hello hi"⟩ =
      "Speaker 2: hello" ++ "\n" ++ "Speaker 1: hi" ∧
    whisperTranscribe (.ran true "hello hi" "" []) = .ok "hello hi" ∧
    ("hello hi" : String) ≠ "Speaker 2: hello" ++ "\n" ++ "Speaker 1: hi" := by
  exact ⟨by rfl, by rfl, by decide⟩

/-- C2 (amended): `Transcriber::transcribe` performs no speaker
attribution: whenever it succeeds, the returned transcript is the trimmed
verbatim content of one of the engine's candidate transcript files or of
the engine's stdout — never a relabelled rendering — and it is non-empty. -/
theorem c2_transcribe_verbatim (o : CliOutcome) (t : String)
    (h : whisperTranscribe o = .ok t) :
    t ≠ "" ∧
      ∃ ex out err txt, o = .ran ex out err txt ∧
        ((∃ c ∈ txt.filterMap id, t = rustTrim c) ∨ t = rustTrim out) := by
  refine ⟨whisperTranscribe_ok_ne_empty o t h, ?_⟩
  cases o with
  | spawnFail m => simp [whisperTranscribe] at h
  | ran ex out err txt =>
      refine ⟨ex, out, err, txt, rfl, ?_⟩
      simp only [whisperTranscribe] at h
      by_cases hex : ex = false
      · rw [if_pos hex] at h; cases h
      · rw [if_neg hex] at h
        cases hfc : firstNonEmptyCandidate txt with
        | some u =>
            rw [hfc] at h
            injection h with h'
            obtain ⟨c, hc, hct, _⟩ := firstNonEmptyCandidate_spec txt u hfc
            exact Or.inl ⟨c, hc, by rw [← h']; exact hct⟩
        | none =>
            rw [hfc] at h
            by_cases hout : rustTrim out = ""
            · rw [if_pos hout] at h; cases h
            · rw [if_neg hout] at h
              injection h with h'
              exact Or.inr h'.symm

theorem c2_transcribe_verbatim_witness :
    whisperTranscribe (.ran true " hello " "" [none, some " file text "]) =
        .ok "file text" ∧
      ("file text" : String) ≠ "" ∧
        ∃ ex out err txt,
          (CliOutcome.ran true " hello " "" [none, some " file text "]) =
              .ran ex out err txt ∧
            ((∃ c ∈ txt.filterMap id, ("file text" : String) = rustTrim c) ∨
              ("file text" : String) = rustTrim out) :=
  ⟨by rfl, c2_transcribe_verbatim _ _ (by rfl)⟩

/-! ## Resampler (audio.rs) -/

/-- Rust `slice::chunks(n)` for `n ≥ 1`: consecutive chunks of size `n`,
the last possibly shorter.  (For `n = 0` Rust panics; the function below is
only ever applied with `channels > 1`.) -/
def chunkBy (n : ℕ) : List ℚ → List (List ℚ)
  | [] => []
  | x :: xs => (x :: xs).take n :: chunkBy n (xs.drop (n - 1))
termination_by l => l.length
decreasing_by
  simp only [List.length_drop, List.length_cons]
  omega

/-- The downmix step of `resample_to_16khz_mono` (audio.rs lines 204–212):
if `channels > 1`, each channel-interleaved group is averaged (the divisor
is always `channels`, also for a trailing short group); otherwise the
samples are returned unchanged.  `f32` arithmetic is idealised as `ℚ`. -/
def downmix (samples : List ℚ) (channels : ℕ) : List ℚ :=
  if channels > 1 then
    (chunkBy channels samples).map (fun c => c.sum / (channels : ℚ))
  else samples

/-- One iteration of the interpolation loop of `resample_to_16khz_mono`
(audio.rs lines 219–230): source position `i * (rate / 16000)`, truncated
index, fractional part; inner neighbour interpolation, last-sample
fallback, nothing when the index is past the end.  The in-bounds guards
make the `getD` defaults unreachable. -/
def resampleStep (mono : List ℚ) (rate : ℕ) (i : ℕ) : Option ℚ :=
  let src : ℚ := (i : ℚ) * ((rate : ℚ) / 16000)
  let idx : ℕ := (Int.floor src).toNat
  let frac : ℚ := src - (idx : ℚ)
  if idx + 1 < mono.length then
    some (mono.getD idx 0 * (1 - frac) + mono.getD (idx + 1) 0 * frac)
  else if idx < mono.length then
    some (mono.getD idx 0)
  else none

/-- `resample_to_16khz_mono` (audio.rs lines 203–233): downmix, then linear
interpolation to 16 kHz.  The output length bound `(len as f64 / ratio) as
usize` is the exact floor `len * 16000 / rate` (ℕ division); for `rate = 0`
both the Rust expression (`len / inf = 0`) and ℕ division give `0`. -/
def resample_to_16khz_mono (samples : List ℚ) (sample_rate : ℕ) (channels : ℕ) :
    List ℚ :=
  let mono := downmix samples channels
  let newLen := mono.length * 16000 / sample_rate
  (List.range newLen).filterMap (resampleStep mono sample_rate)

/-- If `f` is `some ∘ g` on every element, `filterMap f` is `map g`. -/
theorem filterMap_eq_map_of_some {α β : Type} (l : List α) (f : α → Option β)
    (g : α → β) (h : ∀ a ∈ l, f a = some (g a)) : l.filterMap f = l.map g := by
  induction l with
  | nil => rfl
  | cons x xs ih =>
      rw [List.filterMap_cons, h x (by simp), List.map_cons,
        ih (fun a ha => h a (by simp [ha]))]

/-- Reading every index of a list back in order reproduces the list. -/
theorem map_getD_range {α : Type} [Inhabited α] (l : List α) (d : α) :
    (List.range l.length).map (fun i => l.getD i d) = l := by
  apply List.ext_getElem
  · simp
  · intro i h1 h2
    simp only [List.getElem_map, List.getElem_range]
    rw [List.getD_eq_getElem]

/-- A downmix input index within bounds: `chunkBy` for a positive chunk
size on a list of divisible length yields `len / n` chunks. -/
theorem chunkBy_length_of_dvd (n : ℕ) (hn : 0 < n) :
    ∀ l : List ℚ, n ∣ l.length → (chunkBy n l).length = l.length / n := by
  intro l
  induction l using chunkBy.induct n with
  | case1 => simp [chunkBy]
  | case2 x xs ih =>
      intro hd
      simp only [List.length_cons] at hd
      have hlen : n ≤ xs.length + 1 := Nat.le_of_dvd (by omega) hd
      have hd' : n ∣ (xs.drop (n - 1)).length := by
        simp only [List.length_drop]
        obtain ⟨k, hk⟩ := hd
        cases k with
        | zero => omega
        | succ m =>
            rw [Nat.mul_succ] at hk
            exact ⟨m, by omega⟩
      rw [chunkBy]
      simp only [List.length_cons, List.length_drop] at *
      rw [ih hd']
      have h1 : xs.length + 1 = (xs.length - (n - 1)) + n := by omega
      rw [h1, Nat.add_div_right _ hn]

/-- The `i`-th chunk of `chunkBy n` is the slice `l[i*n .. i*n+n)`. -/
theorem chunkBy_getD (n : ℕ) (hn : 0 < n) :
    ∀ (l : List ℚ) (i : ℕ), i < (chunkBy n l).length →
      (chunkBy n l).getD i [] = (l.drop (i * n)).take n := by
  intro l
  induction l using chunkBy.induct n with
  | case1 => intro i hi; simp [chunkBy] at hi
  | case2 x xs ih =>
      intro i hi
      rw [chunkBy] at hi ⊢
      cases i with
      | zero => simp
      | succ j =>
          simp only [List.getD_cons_succ]
          simp only [List.length_cons] at hi
          rw [ih j (by omega)]
          rw [List.drop_drop]
          congr 1
          have : (j + 1) * n = j * n + (n - 1) + 1 := by
            rw [Nat.succ_mul]
            omega
          rw [this, List.drop_succ_cons]
          congr 1
          omega

/-- At rate 16000 the source position is `i`, the fraction `0`, and both
interpolation branches return sample `i` unchanged. -/
theorem resampleStep_rate16000 (mono : List ℚ) (i : ℕ) (hi : i < mono.length) :
    resampleStep mono 16000 i = some (mono.getD i 0) := by
  have hsrc : ((i : ℚ) * (((16000:ℕ) : ℚ) / 16000)) = ((i : ℕ) : ℚ) := by
    push_cast; ring
  simp only [resampleStep, hsrc, Int.floor_natCast, Int.toNat_natCast, sub_self]
  split_ifs with h1
  · ring_nf
  · simp [hi]

/-! ## C7 theorem -/

/-- C7: applying `resample_to_16khz_mono` with `native_rate = 16000` and
`channels = 1` is the identity on the sample buffer: the downmix branch is
skipped, the length bound is the input length, and every interpolation
step reproduces the input sample (fraction 0). -/
theorem c7_resample_identity (samples : List ℚ) :
    resample_to_16khz_mono samples 16000 1 = samples := by
  have hmono : downmix samples 1 = samples := by simp [downmix]
  have hlen : samples.length * 16000 / 16000 = samples.length :=
    Nat.mul_div_cancel _ (by norm_num)
  simp only [resample_to_16khz_mono, hmono, hlen]
  rw [filterMap_eq_map_of_some _ _ (fun i => samples.getD i 0)
    (fun i hi => resampleStep_rate16000 samples i (List.mem_range.mp hi))]
  exact map_getD_range samples 0

/-! ## C8 theorem -/

/-- C8: for an interleaved multi-channel buffer (`channels > 1`, length a
multiple of `channels`) the downmix step yields one sample per
channel-interleaved group, equal to the arithmetic mean of that group; in
particular a 2-channel buffer `[a0, b0, a1, b1]` downmixes to
`[(a0+b0)/2, (a1+b1)/2]`. -/
theorem c8_downmix_mean (samples : List ℚ) (channels : ℕ)
    (h1 : 1 < channels) (h2 : channels ∣ samples.length) :
    ((downmix samples channels).length = samples.length / channels ∧
      ∀ i < samples.length / channels,
        (downmix samples channels).getD i 0 =
          ((samples.drop (i * channels)).take channels).sum / (channels : ℚ)) ∧
      ∀ a0 b0 a1 b1 : ℚ, downmix [a0, b0, a1, b1] 2 = [(a0 + b0) / 2, (a1 + b1) / 2] := by
  have hn : 0 < channels := by omega
  have hdm : downmix samples channels =
      (chunkBy channels samples).map (fun c => c.sum / (channels : ℚ)) := by
    simp [downmix, h1]
  have hclen := chunkBy_length_of_dvd channels hn samples h2
  refine ⟨⟨?_, ?_⟩, ?_⟩
  · rw [hdm, List.length_map, hclen]
  · intro i hi
    have hi' : i < (chunkBy channels samples).length := by rw [hclen]; exact hi
    have hchunk := chunkBy_getD channels hn samples i hi'
    rw [List.getD_eq_getElem _ _ hi'] at hchunk
    have hmlen : i <
        ((chunkBy channels samples).map (fun c => c.sum / (channels : ℚ))).length := by
      simpa using hi'
    rw [hdm, List.getD_eq_getElem _ _ hmlen, List.getElem_map, hchunk]
  · intro a0 b0 a1 b1
    rw [downmix, if_pos (by norm_num)]
    simp [chunkBy]

theorem c8_downmix_mean_witness :
    1 < 2 ∧ (2 ∣ ([(1:ℚ), 3, 5, 9]).length) ∧
      (((downmix [(1:ℚ), 3, 5, 9] 2).length = ([(1:ℚ), 3, 5, 9]).length / 2 ∧
        ∀ i < ([(1:ℚ), 3, 5, 9]).length / 2,
          (downmix [(1:ℚ), 3, 5, 9] 2).getD i 0 =
            (([(1:ℚ), 3, 5, 9].drop (i * 2)).take 2).sum / (2 : ℚ)) ∧
        ∀ a0 b0 a1 b1 : ℚ, downmix [a0, b0, a1, b1] 2 =
          [(a0 + b0) / 2, (a1 + b1) / 2]) :=
  ⟨by norm_num, by decide, c8_downmix_mean [(1:ℚ), 3, 5, 9] 2 (by norm_num) (by decide)⟩

/-! ## C9 theorem -/

/-- C9: a mono buffer of length 100 at native rate 32000 resamples to
length 50, and the first output sample equals the first input sample
(source position 0, fraction 0). -/
theorem c9_resample_halves (samples : List ℚ) (h : samples.length = 100) :
    (resample_to_16khz_mono samples 32000 1).length = 50 ∧
      (resample_to_16khz_mono samples 32000 1).getD 0 0 = samples.getD 0 0 := by
  have hmono : downmix samples 1 = samples := by simp [downmix]
  have hlen : samples.length * 16000 / 32000 = 50 := by rw [h]
  have hstep : ∀ i ∈ List.range 50,
      resampleStep samples 32000 i = some (samples.getD (2 * i) 0) := by
    intro i hi
    rw [List.mem_range] at hi
    have hsrc : ((i : ℚ) * (((32000:ℕ) : ℚ) / 16000)) = (((2 * i : ℕ)) : ℚ) := by
      push_cast; ring
    simp only [resampleStep, hsrc, Int.floor_natCast, Int.toNat_natCast, sub_self]
    have hb : 2 * i + 1 < samples.length := by omega
    rw [if_pos hb]
    ring_nf
  have hmap : resample_to_16khz_mono samples 32000 1 =
      (List.range 50).map (fun i => samples.getD (2 * i) 0) := by
    simp only [resample_to_16khz_mono, hmono, hlen]
    exact filterMap_eq_map_of_some _ _ _ hstep
  rw [hmap]
  constructor
  · simp
  · rw [List.getD_eq_getElem]
    · simp
    · simp

theorem c9_resample_halves_witness :
    (List.replicate 100 ((3:ℚ)/2)).length = 100 ∧
      ((resample_to_16khz_mono (List.replicate 100 ((3:ℚ)/2)) 32000 1).length = 50 ∧
        (resample_to_16khz_mono (List.replicate 100 ((3:ℚ)/2)) 32000 1).getD 0 0 =
          (List.replicate 100 ((3:ℚ)/2)).getD 0 0) :=
  ⟨by simp, c9_resample_halves _ (by simp)⟩

/-! ## Pipeline commands (lib.rs) -/

/-- `ProcessingStatus` from lib.rs. -/
structure ProcessingStatus where
  stage : String
  message : String
  recording_id : Option String
  transcript : Option String
  synced : Bool
deriving DecidableEq, Repr

/-- `SyncResult` from lib.rs. -/
structure SyncResult where
  synced_count : ℕ
  failed_count : ℕ
  errors : List String
deriving DecidableEq, Repr

/-- The per-record body of the loop in `sync_transcripts` (lib.rs lines
504–517): submit, and on success mark the store row synced and count it,
on failure count it and record the error message. -/
def syncStep (net : String → TransportOutcome) :
    SyncResult × List Recording → Recording → SyncResult × List Recording :=
  fun acc r =>
    match submit_transcript (net r.id) with
    | .ok _ =>
        ({ acc.1 with synced_count := acc.1.synced_count + 1 },
          mark_synced acc.2 r.id)
    | .error e =>
        ({ acc.1 with
            failed_count := acc.1.failed_count + 1
            errors := acc.1.errors ++
              ["Recording " ++ r.id ++ ": " ++ syncErrorMsg e] },
          acc.2)

/-- `sync_transcripts` (lib.rs lines 486–524), with the network modelled as
an oracle from the submitted record's client id to the transport outcome of
its single request.  Returns the reported `SyncResult`, the store after the
loop, and the list of records that were submitted (every record the
unsynced query returned).  Store operations are infallible in the model
(the claimed scenario has no store error). -/
def sync_transcripts (db : List Recording) (net : String → TransportOutcome) :
    SyncResult × List Recording × List Recording :=
  let unsynced := get_unsynced_recordings db
  let p := unsynced.foldl (syncStep net) (⟨0, 0, []⟩, db)
  (p.1, p.2, unsynced)

/-- Whether the submission of record `r` succeeds under the oracle. -/
def submitOk (net : String → TransportOutcome) (r : Recording) : Bool :=
  (submit_transcript (net r.id)).isOk

/-- The error-list entry produced for a failing record. -/
def errMsgOf (net : String → TransportOutcome) (r : Recording) : String :=
  match submit_transcript (net r.id) with
  | .ok _ => ""
  | .error e => "Recording " ++ r.id ++ ": " ++ syncErrorMsg e

/-- The cumulative effect of the sync loop on one store row: it ends up
marked synced exactly when some processed record with its id was submitted
successfully. -/
def applySucc (net : String → TransportOutcome) (l : List Recording)
    (x : Recording) : Recording :=
  if l.any (fun r => submitOk net r && r.id == x.id) then
    { x with synced := true }
  else x

/-- Closed form of the sync loop: counts are the numbers of succeeding and
failing submissions, the error list collects the failing records' messages,
and the store is the pointwise `applySucc` image. -/
theorem syncStep_foldl (net : String → TransportOutcome) :
    ∀ (l : List Recording) (acc : SyncResult) (d : List Recording),
      l.foldl (syncStep net) (acc, d) =
        ({ synced_count := acc.synced_count + l.countP (submitOk net),
           failed_count := acc.failed_count + l.countP (fun r => !(submitOk net r)),
           errors := acc.errors ++
             (l.filter (fun r => !(submitOk net r))).map (errMsgOf net) },
         d.map (applySucc net l)) := by
  intro l
  induction l with
  | nil =>
      intro acc d
      simp only [List.foldl_nil, List.countP_nil, Nat.add_zero, List.filter_nil,
        List.map_nil, List.append_nil]
      cases acc with
      | mk sc fc errs =>
          refine Prod.ext (by simp) ?_
          simp only []
          symm
          refine (List.map_congr_left fun x _ => ?_).trans (List.map_id d)
          simp [applySucc]
  | cons r t ih =>
      intro acc d
      rw [List.foldl_cons]
      cases hsub : submit_transcript (net r.id) with
      | ok u =>
          have hok : submitOk net r = true := by
            simp [submitOk, hsub, Except.isOk, Except.toBool]
          have hstep : syncStep net (acc, d) r =
              ({ acc with synced_count := acc.synced_count + 1 },
                mark_synced d r.id) := by
            simp [syncStep, hsub]
          rw [hstep, ih]
          refine Prod.ext ?_ ?_ <;> simp only []
          · cases acc with
            | mk sc fc errs =>
                simp [List.countP_cons, List.filter_cons, hok]
                omega
          · rw [mark_synced, List.map_map]
            apply List.map_congr_left
            intro x _
            simp only [Function.comp_apply]
            by_cases hx : x.id = r.id
            · have h1 : (x.id == r.id) = true := beq_iff_eq.mpr hx
              have h2 : (r.id == x.id) = true := beq_iff_eq.mpr hx.symm
              simp only [h1, if_true, applySucc, List.any_cons, hok, h2,
                Bool.true_and, Bool.true_or, if_true]
              split <;> rfl
            · have h1 : (x.id == r.id) = false := beq_eq_false_iff_ne.mpr hx
              have h2 : (r.id == x.id) = false :=
                beq_eq_false_iff_ne.mpr fun h => hx h.symm
              simp only [h1, Bool.false_eq_true, if_false, applySucc,
                List.any_cons, hok, h2, Bool.true_and, Bool.false_or]
      | error e =>
          have hok : submitOk net r = false := by
            simp [submitOk, hsub, Except.isOk, Except.toBool]
          have hstep : syncStep net (acc, d) r =
              ({ acc with
                  failed_count := acc.failed_count + 1
                  errors := acc.errors ++
                    ["Recording " ++ r.id ++ ": " ++ syncErrorMsg e] }, d) := by
            simp [syncStep, hsub]
          rw [hstep, ih]
          refine Prod.ext ?_ ?_ <;> simp only []
          · cases acc with
            | mk sc fc errs =>
                simp [List.countP_cons, List.filter_cons, hok, errMsgOf, hsub]
                omega
          · apply List.map_congr_left
            intro x _
            simp [applySucc, List.any_cons, hok]

/-- `applySucc` never changes a row's id. -/
theorem applySucc_id_eq (net : String → TransportOutcome) (l : List Recording)
    (x : Recording) : (applySucc net l x).id = x.id := by
  rw [applySucc]
  split <;> rfl

/-- With pairwise distinct ids, a row is marked by the loop exactly when
its own submission succeeded. -/
theorem applySucc_synced_of_nodup (net : String → TransportOutcome)
    (db : List Recording) (hnodup : (db.map (fun r => r.id)).Nodup)
    (x : Recording) (hx : x ∈ db) (hxsync : x.synced = false) :
    (applySucc net db x).synced = submitOk net x := by
  rw [applySucc]
  split
  · next hany =>
      rw [List.any_eq_true] at hany
      obtain ⟨r, hr, hro⟩ := hany
      rw [Bool.and_eq_true, beq_iff_eq] at hro
      have : r = x := List.inj_on_of_nodup_map hnodup hr hx hro.2
      subst this
      exact hro.1.symm
  · next hany =>
      rw [List.any_eq_true] at hany
      push_neg at hany
      have hx' := hany x hx
      simp only [beq_self_eq_true, Bool.and_true] at hx'
      rw [hxsync]
      exact (Bool.eq_false_iff.mpr hx').symm

/-! ## C5 theorem -/

/-- C5: bulk sync of a store of `N` unsynced records (all rows unsynced
with a transcript — the claim's scenario; ids are pairwise distinct as
SQLite's primary key guarantees): of the `N = synced_count + failed_count`
submissions, afterward exactly the `synced_count = N - failed_count`
records whose submission succeeded carry `synced = true`, and every row's
final flag equals its own submission outcome. -/
theorem c5_bulk_sync (db : List Recording) (net : String → TransportOutcome)
    (hnodup : (db.map (fun r => r.id)).Nodup)
    (hall : ∀ r ∈ db, r.synced = false ∧ r.transcript.isSome = true) :
    (sync_transcripts db net).1.synced_count + (sync_transcripts db net).1.failed_count =
        (get_unsynced_recordings db).length ∧
      ((sync_transcripts db net).2.1.filter (fun r => r.synced)).length =
        (sync_transcripts db net).1.synced_count ∧
      ∀ r' ∈ (sync_transcripts db net).2.1,
        r'.synced = (submit_transcript (net r'.id)).isOk := by
  have hunsynced : get_unsynced_recordings db = db :=
    List.filter_eq_self.mpr fun r hr => by
      simp [(hall r hr).1, (hall r hr).2]
  have hfold := syncStep_foldl net db ⟨0, 0, []⟩ db
  have hsync : sync_transcripts db net =
      ({ synced_count := 0 + db.countP (submitOk net),
         failed_count := 0 + db.countP (fun r => !(submitOk net r)),
         errors := [] ++ (db.filter (fun r => !(submitOk net r))).map (errMsgOf net) },
       db.map (applySucc net db), db) := by
    rw [sync_transcripts]
    simp only [hunsynced]
    rw [hfold]
  rw [hsync, hunsynced]
  simp only [Nat.zero_add, List.nil_append]
  refine ⟨?_, ?_, ?_⟩
  · rw [List.length_eq_countP_add_countP (submitOk net) db]
    congr 1
    exact List.countP_congr fun x _ => by simp
  · rw [List.filter_map, List.length_map, ← List.countP_eq_length_filter]
    exact List.countP_congr fun x hx => by
      simp only [Function.comp_apply,
        applySucc_synced_of_nodup net db hnodup x hx (hall x hx).1]
  · intro r' hr'
    rw [List.mem_map] at hr'
    obtain ⟨x, hx, rfl⟩ := hr'
    rw [applySucc_synced_of_nodup net db hnodup x hx (hall x hx).1,
      applySucc_id_eq, submitOk]

theorem c5_bulk_sync_witness :
    ((([⟨"a", "s", "pa", some "ta", 1, "t", false⟩,
        ⟨"b", "s", "pb", some "tb", 1, "t", false⟩] : List Recording).map
          (fun r => r.id)).Nodup ∧
      ∀ r ∈ ([⟨"a", "s", "pa", some "ta", 1, "t", false⟩,
        ⟨"b", "s", "pb", some "tb", 1, "t", false⟩] : List Recording),
          r.synced = false ∧ r.transcript.isSome = true) ∧
    ((sync_transcripts [⟨"a", "s", "pa", some "ta", 1, "t", false⟩,
          ⟨"b", "s", "pb", some "tb", 1, "t", false⟩]
        (fun id => if id == "a" then .received 200 (.parsed ⟨true, none, none⟩)
          else .sendErr "down")).1.synced_count +
      (sync_transcripts [⟨"a", "s", "pa", some "ta", 1, "t", false⟩,
          ⟨"b", "s", "pb", some "tb", 1, "t", false⟩]
        (fun id => if id == "a" then .received 200 (.parsed ⟨true, none, none⟩)
          else .sendErr "down")).1.failed_count =
        (get_unsynced_recordings [⟨"a", "s", "pa", some "ta", 1, "t", false⟩,
          ⟨"b", "s", "pb", some "tb", 1, "t", false⟩]).length ∧
      ((sync_transcripts [⟨"a", "s", "pa", some "ta", 1, "t", false⟩,
          ⟨"b", "s", "pb", some "tb", 1, "t", false⟩]
        (fun id => if id == "a" then .received 200 (.parsed ⟨true, none, none⟩)
          else .sendErr "down")).2.1.filter (fun r => r.synced)).length =
        (sync_transcripts [⟨"a", "s", "pa", some "ta", 1, "t", false⟩,
          ⟨"b", "s", "pb", some "tb", 1, "t", false⟩]
        (fun id => if id == "a" then .received 200 (.parsed ⟨true, none, none⟩)
          else .sendErr "down")).1.synced_count ∧
      ∀ r' ∈ (sync_transcripts [⟨"a", "s", "pa", some "ta", 1, "t", false⟩,
          ⟨"b", "s", "pb", some "tb", 1, "t", false⟩]
        (fun id => if id == "a" then .received 200 (.parsed ⟨true, none, none⟩)
          else .sendErr "down")).2.1,
        r'.synced = (submit_transcript ((fun id =>
          if id == "a" then TransportOutcome.received 200 (.parsed ⟨true, none, none⟩)
          else .sendErr "down") r'.id)).isOk) :=
  ⟨⟨by decide, by decide⟩, c5_bulk_sync _ _ (by decide) (by decide)⟩

/-! ## C10 theorem -/

/-- C10: the unsynced-record query returns exactly the store rows whose
synced flag is false and whose transcript is present, and consequently
every record bulk sync submits carries a transcript. -/
theorem c10_unsynced_query (db : List Recording) (r : Recording)
    (net : String → TransportOutcome) :
    (r ∈ get_unsynced_recordings db ↔
        r ∈ db ∧ r.synced = false ∧ r.transcript.isSome = true) ∧
      ∀ s ∈ (sync_transcripts db net).2.2, s.transcript.isSome = true := by
  constructor
  · rw [get_unsynced_recordings, List.mem_filter]
    constructor
    · rintro ⟨h1, h2⟩
      rw [Bool.and_eq_true] at h2
      exact ⟨h1, by simpa using h2.1, h2.2⟩
    · rintro ⟨h1, h2, h3⟩
      exact ⟨h1, by simp [h2, h3]⟩
  · intro s hs
    have hs' : s ∈ get_unsynced_recordings db := hs
    rw [get_unsynced_recordings, List.mem_filter, Bool.and_eq_true] at hs'
    exact hs'.2.2

/-! ## delete_recording (lib.rs) and C6 -/

/-- `delete_recording` (lib.rs lines 457–468): look the record up among all
recordings; if present, remove its audio file (ignoring file-system
errors); then delete the store row.  Store operations are infallible in the
model, matching the command's only failure sources (lock/SQL errors). -/
def delete_recording_cmd (db : List Recording) (files : List String)
    (rid : String) : Except String (List Recording × List String) :=
  let files' :=
    match (get_all_recordings db).find? (fun r => r.id == rid) with
    | some r => files.filter (fun p => !(p == r.audio_path))
    | none => files
  .ok (db_delete_recording db rid, files')

/-! ## C6 theorem -/

/-- C6: `delete_recording` succeeds for every identifier; it removes the
store row with that id (other rows are kept) and the found record's audio
file; for an identifier not present in the store it is a no-op returning
success. -/
theorem c6_delete_recording (db : List Recording) (files : List String)
    (rid : String) :
    ∃ db' files', delete_recording_cmd db files rid = .ok (db', files') ∧
      (∀ r' ∈ db', r'.id ≠ rid) ∧
      (∀ r ∈ db, r.id ≠ rid → r ∈ db') ∧
      (∀ r, (get_all_recordings db).find? (fun x => x.id == rid) = some r →
        r.audio_path ∉ files') ∧
      ((∀ r ∈ db, r.id ≠ rid) → db' = db ∧ files' = files) := by
  have hdel1 : ∀ r' ∈ db_delete_recording db rid, r'.id ≠ rid := by
    intro r' hr'
    rw [db_delete_recording, List.mem_filter] at hr'
    simpa using hr'.2
  have hdel2 : ∀ r ∈ db, r.id ≠ rid → r ∈ db_delete_recording db rid := by
    intro r hr hne
    rw [db_delete_recording, List.mem_filter]
    exact ⟨hr, by simpa using hne⟩
  cases hfind : (get_all_recordings db).find? (fun x => x.id == rid) with
  | none =>
      refine ⟨db_delete_recording db rid, files, ?_, hdel1, hdel2, ?_, ?_⟩
      · rw [delete_recording_cmd, hfind]
      · intro r hr
        simp at hr
      · intro hne
        refine ⟨?_, rfl⟩
        rw [db_delete_recording]
        exact List.filter_eq_self.mpr fun r hr => by simpa using hne r hr
  | some r0 =>
      refine ⟨db_delete_recording db rid,
        files.filter (fun p => !(p == r0.audio_path)), ?_, hdel1, hdel2, ?_, ?_⟩
      · rw [delete_recording_cmd, hfind]
      · intro r hr
        injection hr with hr
        subst hr
        intro hmem
        rw [List.mem_filter] at hmem
        simpa using hmem.2
      · intro hne
        have h1 : r0 ∈ db := List.mem_of_find?_eq_some hfind
        have h2 := List.find?_some hfind
        simp only [beq_iff_eq] at h2
        exact absurd h2 (hne r0 h1)

/-! ## stop_and_process (lib.rs) -/

/-- The environment of one `stop_and_process` run: outcomes of its
effectful steps.  `saveResult` is the outcome of writing the WAV file
(`Ok` carries the computed duration; directory-creation failure is folded
in); `studentId`/`serverUrl` are the settings rows (`none` = absent, the
source substitutes defaults; the server URL only feeds the network request
already summarised by `net`); `modelLoaded` is whether a transcriber is
loaded; `cli` is the whisper-cli outcome; `net` the transport outcome of
the single sync request; `newId` the generated UUID; `nowTs` the
RFC-3339 timestamp; `dataDir` the app data directory. -/
structure PipelineEnv where
  saveResult : Except String ℚ
  studentId : Option String
  serverUrl : Option String
  modelLoaded : Bool
  cli : CliOutcome
  net : TransportOutcome
  newId : String
  nowTs : String
  dataDir : String

/-- Observable outcome of one `stop_and_process` run: the emitted
`processing-status` events in order, the records submitted to the sync
client, the final recordings store, and the command's return value. -/
structure PipelineOut where
  events : List ProcessingStatus
  submits : List Recording
  db : List Recording
  result : Except String ProcessingStatus

/-- `stop_and_process` (lib.rs lines 209–336).  Stage 1 saves the audio and
persists the fresh `Recording` (save failure aborts with `Err`); stage 2
transcribes, emitting an `error` event and keeping `transcript = None` on
failure (also when no model is loaded) and persisting the transcript on
success; stage 3 submits to the server only when a transcript exists,
marking the row synced only when the submission succeeds; stage 4 always
returns a `done` status carrying the transcript (if any) and synced flag. -/
def stop_and_process (db0 : List Recording) (env : PipelineEnv) : PipelineOut :=
  let savingEvt : ProcessingStatus :=
    ⟨"saving", "Saving audio...", none, none, false⟩
  match env.saveResult with
  | .error e => ⟨[savingEvt], [], db0, .error e⟩
  | .ok duration =>
    let sid := env.studentId.getD "unknown"
    let audioPath := env.dataDir ++ "/audio/" ++ env.newId ++ ".wav"
    let rec0 : Recording :=
      ⟨env.newId, sid, audioPath, none, duration, env.nowTs, false⟩
    let db1 := save_recording db0 rec0
    let transcribingEvt : ProcessingStatus :=
      ⟨"transcribing", "Transcribing audio...", some env.newId, none, false⟩
    let tr : Option String × List ProcessingStatus :=
      if env.modelLoaded then
        match whisperTranscribe env.cli with
        | .ok t => (some t, [])
        | .error e =>
            (none, [⟨"error", "Transcription failed: " ++ e,
              some env.newId, none, false⟩])
      else
        (none, [⟨"error", "Model not loaded. Please load the model in Settings.",
          some env.newId, none, false⟩])
    let transcript := tr.1
    let db2 :=
      match transcript with
      | some t => save_recording db1 { rec0 with transcript := some t }
      | none => db1
    let syncingEvt : ProcessingStatus :=
      ⟨"syncing", "Syncing to server...", some env.newId, transcript, false⟩
    let syncRes : Bool × List Recording × List Recording :=
      if transcript.isSome then
        match (get_all_recordings db2).find? (fun r => r.id == env.newId) with
        | some rec =>
            if (submit_transcript env.net).isOk then
              (true, [rec], mark_synced db2 env.newId)
            else (false, [rec], db2)
        | none => (false, [], db2)
      else (false, [], db2)
    let finalMsg :=
      if syncRes.1 then "Done! Transcript synced to server."
      else if transcript.isSome then "Done! Transcript saved locally (sync pending)."
      else "Recording saved. Transcription failed."
    let finalEvt : ProcessingStatus :=
      ⟨"done", finalMsg, some env.newId, transcript, syncRes.1⟩
    ⟨[savingEvt, transcribingEvt] ++ tr.2 ++ [syncingEvt, finalEvt],
      syncRes.2.1, syncRes.2.2, .ok finalEvt⟩

/-! ## C3 theorem -/

/-- C3: when saving and persisting succeed but transcription fails, the
pipeline does not abort: an intermediate `error` event carrying the failure
detail is emitted, nothing is submitted to the sync client, and the
returned terminal status has stage `done`, no transcript, and
`synced = false`. -/
theorem c3_transcription_failure (db0 : List Recording) (env : PipelineEnv)
    (dur : ℚ) (e : String)
    (hsave : env.saveResult = .ok dur)
    (hmodel : env.modelLoaded = true)
    (htr : whisperTranscribe env.cli = .error e) :
    (∃ evt ∈ (stop_and_process db0 env).events,
        evt.stage = "error" ∧ evt.message = "Transcription failed: " ++ e) ∧
      (stop_and_process db0 env).submits = [] ∧
      ∃ fin, (stop_and_process db0 env).result = .ok fin ∧
        fin.stage = "done" ∧ fin.transcript = none ∧ fin.synced = false := by
  simp only [stop_and_process, hsave, hmodel, htr, if_true]
  refine ⟨⟨⟨"error", "Transcription failed: " ++ e, some env.newId, none, false⟩,
    by simp, rfl, rfl⟩, rfl, ⟨_, rfl, rfl, rfl, rfl⟩⟩

theorem c3_transcription_failure_witness :
    ((⟨.ok 1, some "stu", some "url", true, .ran true "" "" [],
        .sendErr "down", "id1", "ts", "dd"⟩ : PipelineEnv).saveResult = .ok 1 ∧
      (⟨.ok 1, some "stu", some "url", true, .ran true "" "" [],
        .sendErr "down", "id1", "ts", "dd"⟩ : PipelineEnv).modelLoaded = true ∧
      whisperTranscribe (⟨.ok 1, some "stu", some "url", true, .ran true "" "" [],
        .sendErr "down", "id1", "ts", "dd"⟩ : PipelineEnv).cli =
        .error "Transcription produced empty output. The audio may be too short or contain no speech.") ∧
    ((∃ evt ∈ (stop_and_process [] ⟨.ok 1, some "stu", some "url", true,
          .ran true "" "" [], .sendErr "down", "id1", "ts", "dd"⟩).events,
        evt.stage = "error" ∧ evt.message = "Transcription failed: " ++
          "Transcription produced empty output. The audio may be too short or contain no speech.") ∧
      (stop_and_process [] ⟨.ok 1, some "stu", some "url", true,
          .ran true "" "" [], .sendErr "down", "id1", "ts", "dd"⟩).submits = [] ∧
      ∃ fin, (stop_and_process [] ⟨.ok 1, some "stu", some "url", true,
          .ran true "" "" [], .sendErr "down", "id1", "ts", "dd"⟩).result = .ok fin ∧
        fin.stage = "done" ∧ fin.transcript = none ∧ fin.synced = false) :=
  ⟨⟨rfl, rfl, by rfl⟩, c3_transcription_failure _ _ 1 _ rfl rfl (by rfl)⟩

/-- After an `INSERT OR REPLACE`, looking the key up finds the new row. -/
theorem find?_save_recording (db : List Recording) (r : Recording) (rid : String)
    (h : r.id = rid) :
    (save_recording db r).find? (fun x => x.id == rid) = some r := by
  subst h
  rw [save_recording, List.find?_append]
  have h1 : (db.filter (fun x => !(x.id == r.id))).find? (fun x => x.id == r.id) =
      none := by
    rw [List.find?_eq_none]
    intro x hx
    rw [List.mem_filter] at hx
    simpa using hx.2
  rw [h1]
  simp [List.find?]

/-- After an `INSERT OR REPLACE`, the only row carrying the key is the new
row. -/
theorem mem_save_recording_id (db : List Recording) (r : Recording)
    (x : Recording) (hx : x ∈ save_recording db r) (hid : x.id = r.id) :
    x = r := by
  rw [save_recording, List.mem_append] at hx
  cases hx with
  | inl h =>
      rw [List.mem_filter] at h
      have h2 : (x.id == r.id) = false := by simpa using h.2
      rw [beq_iff_eq.mpr hid] at h2
      cases h2
  | inr h => simpa using h

/-! ## C4 theorem -/

/-- C4: when transcription succeeds but the sync submission fails, the
returned terminal status has stage `done`, the (non-empty) transcript, and
`synced = false`, and every store row carrying the new recording's id still
has `synced = false` (the row is never marked synced). -/
theorem c4_sync_failure (db0 : List Recording) (env : PipelineEnv)
    (dur : ℚ) (t : String)
    (hsave : env.saveResult = .ok dur)
    (hmodel : env.modelLoaded = true)
    (htr : whisperTranscribe env.cli = .ok t)
    (hnet : (submit_transcript env.net).isOk = false) :
    (∃ fin, (stop_and_process db0 env).result = .ok fin ∧
        fin.stage = "done" ∧ fin.transcript = some t ∧ fin.synced = false) ∧
      t ≠ "" ∧
      ∀ r ∈ (stop_and_process db0 env).db, r.id = env.newId →
        r.synced = false := by
  simp only [stop_and_process, hsave, hmodel, htr, if_true, get_all_recordings,
    Option.isSome_some]
  rw [find?_save_recording _ _ env.newId rfl]
  simp only [hnet, Bool.false_eq_true, if_false]
  refine ⟨⟨_, rfl, rfl, rfl, rfl⟩, whisperTranscribe_ok_ne_empty env.cli t htr, ?_⟩
  intro r hr hid
  have hr' := mem_save_recording_id _ _ r hr hid
  rw [hr']

theorem c4_sync_failure_witness :
    ((⟨.ok 1, some "stu", some "url", true, .ran true "hello" "" [],
        .sendErr "down", "id1", "ts", "dd"⟩ : PipelineEnv).saveResult = .ok 1 ∧
      (⟨.ok 1, some "stu", some "url", true, .ran true "hello" "" [],
        .sendErr "down", "id1", "ts", "dd"⟩ : PipelineEnv).modelLoaded = true ∧
      whisperTranscribe (⟨.ok 1, some "stu", some "url", true,
        .ran true "hello" "" [], .sendErr "down", "id1", "ts", "dd"⟩ :
          PipelineEnv).cli = .ok "hello" ∧
      (submit_transcript (⟨.ok 1, some "stu", some "url", true,
        .ran true "hello" "" [], .sendErr "down", "id1", "ts", "dd"⟩ :
          PipelineEnv).net).isOk = false) ∧
    ((∃ fin, (stop_and_process [] ⟨.ok 1, some "stu", some "url", true,
          .ran true "hello" "" [], .sendErr "down", "id1", "ts", "dd"⟩).result =
            .ok fin ∧
        fin.stage = "done" ∧ fin.transcript = some "hello" ∧ fin.synced = false) ∧
      ("hello" : String) ≠ "" ∧
      ∀ r ∈ (stop_and_process [] ⟨.ok 1, some "stu", some "url", true,
          .ran true "hello" "" [], .sendErr "down", "id1", "ts", "dd"⟩).db,
        r.id = (⟨.ok 1, some "stu", some "url", true, .ran true "hello" "" [],
          .sendErr "down", "id1", "ts", "dd"⟩ : PipelineEnv).newId →
          r.synced = false) :=
  ⟨⟨rfl, rfl, by rfl, rfl⟩, c4_sync_failure _ _ 1 _ rfl rfl (by rfl) rfl⟩
